import Mathlib

set_option autoImplicit false

/-!
# Verification of the kelonio measurement-and-aggregation engine

Shallow embedding of `src/index.ts`.  Durations, which are floating-point
milliseconds in the source, are modelled as exact rationals; the square
root used by the standard deviation and the margin of error lives in `ℝ`.
The wall clock is abstracted into an oracle `Nat → ℚ` giving the duration
sample of each iteration, and the completion order of overlapped
iterations is abstracted into a `schedule : List Nat` constrained in the
theorems to be a permutation of the iteration indices.
-/

/-- Errors raised by the engine.  `invalidArgument` models a plain thrown
`Error` with the given message; `performance` models a `PerformanceError`
whose message names the violated statistic, its measured value and the
configured threshold (in the source the message reads
`"<statistic> time of <value> ms exceeded threshold of <threshold> ms"`,
so the three payload fields are exactly the data interpolated into it). -/
inductive BenchError where
  | invalidArgument (message : String)
  | performance (statistic : String) (value : ℝ) (threshold : ℚ)

/-- `mathjs.mean`: arithmetic mean of the samples. -/
def Stats.mean (l : List ℚ) : ℚ := l.sum / l.length

/-- `mathjs.min`: least sample.  (mathjs throws on an empty list; the
`Measurement` invariant makes that unreachable, so the empty case is a
junk value.) -/
def Stats.minimum (l : List ℚ) : ℚ :=
  match l with
  | [] => 0
  | x :: xs => xs.foldl min x

/-- `mathjs.max`: greatest sample (empty case unreachable, junk value). -/
def Stats.maximum (l : List ℚ) : ℚ :=
  match l with
  | [] => 0
  | x :: xs => xs.foldl max x

/-- `mathjs.variance` with its default `unbiased` normalization: the sum of
squared deviations from the mean divided by `n - 1`, with the special case
that a single sample gives variance `0` (mathjs returns zero there rather
than dividing by zero; the empty case throws in mathjs and is unreachable
here, junk value `0`). -/
def Stats.variance (l : List ℚ) : ℚ :=
  if l.length ≤ 1 then 0
  else (l.map (fun x => (x - Stats.mean l) ^ 2)).sum / ((l.length : ℚ) - 1)

/-- `mathjs.std`: square root of the (unbiased) variance. -/
noncomputable def Stats.standardDeviation (l : List ℚ) : ℝ :=
  Real.sqrt ((Stats.variance l : ℝ))

/-- Margin of error at 95% confidence, as computed by
`Measurement.marginOfError`:
`mathjs.sqrt(mathjs.variance(durations) / durations.length) * 1.96`. -/
noncomputable def Stats.marginOfError (l : List ℚ) : ℝ :=
  Real.sqrt ((Stats.variance l : ℝ) / (l.length : ℝ)) * 1.96

/-- The `Measurement` class: a list of duration samples in milliseconds. -/
structure Measurement where
  durations : List ℚ
deriving DecidableEq

/-- `new Measurement(durations)`: the constructor throws when the list of
durations is empty. -/
def Measurement.make (durations : List ℚ) : Except BenchError Measurement :=
  if durations.length = 0 then
    .error (.invalidArgument "The list of durations must not be empty")
  else
    .ok ⟨durations⟩

/-- `Measurement#mean`. -/
def Measurement.mean (m : Measurement) : ℚ := Stats.mean m.durations

/-- `Measurement#min`. -/
def Measurement.min (m : Measurement) : ℚ := Stats.minimum m.durations

/-- `Measurement#max`. -/
def Measurement.max (m : Measurement) : ℚ := Stats.maximum m.durations

/-- `Measurement#standardDeviation`. -/
noncomputable def Measurement.standardDeviation (m : Measurement) : ℝ :=
  Stats.standardDeviation m.durations

/-- `Measurement#marginOfError`. -/
noncomputable def Measurement.marginOfError (m : Measurement) : ℝ :=
  Stats.marginOfError m.durations

/-- `MeasureOptions` after merging with the defaults: `iterations` and
`serial` and `verify` are always present, the five thresholds stay
optional.  The `beforeEach`/`afterEach` hooks are not modelled: the unit
of work and its hooks are assumed to complete without failure (their only
observable effect in the source is failure propagation and timing, both
abstracted into the duration oracle). -/
structure MeasureOptions where
  iterations : ℕ
  serial : Bool
  meanUnder : Option ℚ
  minUnder : Option ℚ
  maxUnder : Option ℚ
  marginOfErrorUnder : Option ℚ
  standardDeviationUnder : Option ℚ
  verify : Bool
deriving DecidableEq

/-- `defaultMeasureOptions`. -/
def defaultMeasureOptions : MeasureOptions :=
  { iterations := 100
    serial := true
    meanUnder := none
    minUnder := none
    maxUnder := none
    marginOfErrorUnder := none
    standardDeviationUnder := none
    verify := true }

/-- `Partial<MeasureOptions>` (minus the unmodelled hooks): every field
optional. -/
structure OptionalMeasureOptions where
  iterations : Option ℕ := none
  serial : Option Bool := none
  meanUnder : Option ℚ := none
  minUnder : Option ℚ := none
  maxUnder : Option ℚ := none
  marginOfErrorUnder : Option ℚ := none
  standardDeviationUnder : Option ℚ := none
  verify : Option Bool := none
deriving DecidableEq

/-- The spread `{ ...defaultMeasureOptions, ...options }`: a field present
in `options` overrides the default. -/
def mergeOptions (options : OptionalMeasureOptions) : MeasureOptions :=
  { iterations := options.iterations.getD defaultMeasureOptions.iterations
    serial := options.serial.getD defaultMeasureOptions.serial
    meanUnder := options.meanUnder
    minUnder := options.minUnder
    maxUnder := options.maxUnder
    marginOfErrorUnder := options.marginOfErrorUnder
    standardDeviationUnder := options.standardDeviationUnder
    verify := options.verify.getD defaultMeasureOptions.verify }

/-- View a fully merged option record as a `Partial<MeasureOptions>` with
every field present, as happens in `record` where the spread
`{ ...mergedOptions, verify: false }` (a full record) is passed to
`measure`, which merges it over the defaults again. -/
def MeasureOptions.toOptional (o : MeasureOptions) : OptionalMeasureOptions :=
  { iterations := some o.iterations
    serial := some o.serial
    meanUnder := o.meanUnder
    minUnder := o.minUnder
    maxUnder := o.maxUnder
    marginOfErrorUnder := o.marginOfErrorUnder
    standardDeviationUnder := o.standardDeviationUnder
    verify := some o.verify }

/-- One `if (options.xUnder !== undefined) { if (stat > options.xUnder)
throw ... }` block of `verifyMeasurement`, continuing with the rest of the
checks when it does not throw. -/
noncomputable def checkThreshold (statistic : String) (value : ℝ)
    (threshold : Option ℚ) (rest : Except BenchError Unit) :
    Except BenchError Unit :=
  match threshold with
  | none => rest
  | some t => if value > (t : ℝ) then .error (.performance statistic value t) else rest

/-- `verifyMeasurement`: nothing to do when `verify` is false, otherwise
check mean, min, max, margin of error and standard deviation in that
order, throwing at the first defined threshold that is strictly
exceeded. -/
noncomputable def verifyMeasurement (measurement : Measurement)
    (options : MeasureOptions) : Except BenchError Unit :=
  if options.verify = false then .ok ()
  else
    checkThreshold "Mean" (measurement.mean : ℝ) options.meanUnder <|
    checkThreshold "Minimum" (measurement.min : ℝ) options.minUnder <|
    checkThreshold "Maximum" (measurement.max : ℝ) options.maxUnder <|
    checkThreshold "Margin of error" measurement.marginOfError options.marginOfErrorUnder <|
    checkThreshold "Standard deviation" measurement.standardDeviation options.standardDeviationUnder <|
    .ok ()

/-- The five statistic/threshold pairs in the fixed order in which
`verifyMeasurement` checks them (spec §4.3). -/
noncomputable def thresholdChecks (measurement : Measurement)
    (options : MeasureOptions) : List (String × ℝ × Option ℚ) :=
  [("Mean", (measurement.mean : ℝ), options.meanUnder),
   ("Minimum", (measurement.min : ℝ), options.minUnder),
   ("Maximum", (measurement.max : ℝ), options.maxUnder),
   ("Margin of error", measurement.marginOfError, options.marginOfErrorUnder),
   ("Standard deviation", measurement.standardDeviation, options.standardDeviationUnder)]

/-- Spec-side scan: the first check in the list whose threshold is defined
and whose statistic value is strictly greater than it. -/
noncomputable def firstExceeded :
    List (String × ℝ × Option ℚ) → Option (String × ℝ × ℚ)
  | [] => none
  | (_, _, none) :: rest => firstExceeded rest
  | (s, v, some t) :: rest =>
      if v > (t : ℝ) then some (s, v, t) else firstExceeded rest

/-- One iteration's durations as collected by `measure`: in serial mode the
iterations complete in launch order, so the samples are the oracle's values
in index order; in overlapped mode (`Promise.all`) the completion order is
unspecified and is given by the ambient `schedule` (constrained in the
theorems to be a permutation of the iteration indices). -/
def runDurations (oracle : ℕ → ℚ) (schedule : List ℕ)
    (options : MeasureOptions) : List ℚ :=
  if options.serial then (List.range options.iterations).map oracle
  else schedule.map oracle

/-- `measure(fn, options)`: merge the options over the defaults, run the
iterations collecting one duration sample each, construct a `Measurement`
(which throws on an empty sample list), verify it against the thresholds,
and return it. -/
noncomputable def Kelonio.measure (oracle : ℕ → ℚ) (schedule : List ℕ)
    (options : OptionalMeasureOptions) : Except BenchError Measurement :=
  let mergedOptions := mergeOptions options
  let durations := runDurations oracle schedule mergedOptions
  match Measurement.make durations with
  | .error e => .error e
  | .ok measurement =>
    match verifyMeasurement measurement mergedOptions with
    | .error e => .error e
    | .ok _ => .ok measurement

/-- One node of `BenchmarkData`: the `durations` recorded directly at this
key and the nested `children`.  JavaScript objects preserve key insertion
order, so the children mapping is an association list. -/
inductive BenchmarkNode where
  | mk (durations : List ℚ) (children : List (String × BenchmarkNode))

/-- The `durations` field of a node. -/
def BenchmarkNode.durations : BenchmarkNode → List ℚ
  | .mk d _ => d

/-- The `children` field of a node. -/
def BenchmarkNode.children : BenchmarkNode → List (String × BenchmarkNode)
  | .mk _ c => c

/-- `BenchmarkData`: an insertion-ordered mapping from description
segments to nodes. -/
abbrev BenchmarkData := List (String × BenchmarkNode)

/-- The `key in data` test of `addBenchmarkDurations`. -/
def containsKey (data : BenchmarkData) (key : String) : Bool :=
  data.any (fun entry => entry.1 == key)

/-- Property assignment `data[key] = f(data[key])` on an existing key: the
entry is updated in place, preserving its position. -/
def updateKey (data : BenchmarkData) (key : String)
    (f : BenchmarkNode → BenchmarkNode) : BenchmarkData :=
  match data with
  | [] => []
  | (k, v) :: rest =>
      if k == key then (k, f v) :: rest else (k, v) :: updateKey rest key f

/-- Association-list lookup `data[key]`. -/
def lookupKey (data : BenchmarkData) (key : String) : Option BenchmarkNode :=
  match data with
  | [] => none
  | (k, v) :: rest => if k == key then some v else lookupKey rest key

/-- `Benchmark#addBenchmarkDurations`: descend along the categories,
lazily creating a `{ durations: [], children: {} }` node for each missing
segment (a new key is appended at the end of the object), and concatenate
the sample list onto the final node's own duration list.  The source is
only ever called with a non-empty category list (`incorporate` guards it),
so the empty case is a no-op junk branch. -/
def addBenchmarkDurations (data : BenchmarkData) (categories : List String)
    (durations : List ℚ) : BenchmarkData :=
  match categories with
  | [] => data
  | c :: rest =>
    let data1 := if containsKey data c then data else data ++ [(c, .mk [] [])]
    match rest with
    | [] =>
        updateKey data1 c (fun n => .mk (n.durations ++ durations) n.children)
    | r :: rs =>
        updateKey data1 c
          (fun n => .mk n.durations (addBenchmarkDurations n.children (r :: rs) durations))

/-- `Benchmark#incorporate`: reject an empty description, otherwise merge
the measurement's durations into the tree. -/
def incorporate (data : BenchmarkData) (description : List String)
    (measurement : Measurement) : Except BenchError BenchmarkData :=
  if description.length = 0 then
    .error (.invalidArgument "The description must not be empty")
  else
    .ok (addBenchmarkDurations data description measurement.durations)

/-- The description argument of `Benchmark#record`: absent (bare function
overload), a single string, or an array of strings. -/
inductive RecordDesc where
  | noDesc
  | strDesc (s : String)
  | listDesc (l : List String)

/-- `descriptionSpecified` in `record`: whether a description argument was
passed at all. -/
def RecordDesc.specified : RecordDesc → Bool
  | .noDesc => false
  | _ => true

/-- `description.length` at the emptiness check in `record`, which runs
before a string is wrapped into a one-element array: for a string argument
it is the string's length, for an array its number of elements, and for the
bare-function overload the length of the `[]` the code substitutes. -/
def RecordDesc.rawLength : RecordDesc → ℕ
  | .noDesc => 0
  | .strDesc s => s.length
  | .listDesc l => l.length

/-- The description path after the `typeof description === "string"`
wrapping: a string becomes a one-element path. -/
def RecordDesc.path : RecordDesc → List String
  | .noDesc => []
  | .strDesc s => [s]
  | .listDesc l => l

/-- Observable effects of one `Benchmark#record` call, in execution order:
the iterations running and producing their samples, the merge into
`Benchmark.data`, the `record` event emission, and the threshold
verification with its outcome. -/
inductive RecordEffect where
  | run (durations : List ℚ)
  | merge (path : List String) (measurement : Measurement)
  | emit (path : List String) (measurement : Measurement)
  | verified (outcome : Except BenchError Unit)

/-- Whether an effect is the `record` event emission. -/
def RecordEffect.isEmit : RecordEffect → Bool
  | .emit _ _ => true
  | _ => false

/-- Result of a `Benchmark#record` call: the returned measurement or the
thrown error, the final `Benchmark.data`, and the trace of observable
effects. -/
structure RecordOutcome where
  result : Except BenchError Measurement
  data : BenchmarkData
  trace : List RecordEffect

/-- The spread `{ ...o, verify: v }`: the same options with `verify`
replaced. -/
def MeasureOptions.setVerify (o : MeasureOptions) (v : Bool) : MeasureOptions :=
  { o with verify := v }

/-- `Benchmark#record`: dispatch on the argument shape, merge the options
over the defaults, reject an explicitly supplied empty description, wrap a
string description into a one-element path, run `measure` with `verify`
forced false, merge into the tree when the path is non-empty (through
`incorporate`, whose own emptiness check cannot fire there), emit the
`record` event, then verify with the merged options (`verify` forced back
true) and return the measurement or fail. -/
noncomputable def Benchmark.record (data : BenchmarkData) (oracle : ℕ → ℚ)
    (schedule : List ℕ) (desc : RecordDesc)
    (options : OptionalMeasureOptions) : RecordOutcome :=
  let mergedOptions := mergeOptions options
  if desc.specified = true ∧ desc.rawLength = 0 then
    { result := .error (.invalidArgument "The description must not be empty")
      data := data
      trace := [] }
  else
    let description := desc.path
    let runOptions : MeasureOptions := mergedOptions.setVerify false
    match Kelonio.measure oracle schedule runOptions.toOptional with
    | .error e =>
        { result := .error e
          data := data
          trace := [.run (runDurations oracle schedule runOptions)] }
    | .ok measurement =>
      let merged : Except BenchError (BenchmarkData × List RecordEffect) :=
        if 0 < description.length then
          match incorporate data description measurement with
          | .ok data1 => .ok (data1, [.merge description measurement])
          | .error e => .error e
        else .ok (data, [])
      match merged with
      | .error e =>
          { result := .error e
            data := data
            trace := [.run measurement.durations] }
      | .ok (data1, mergeTrace) =>
        let outcome := verifyMeasurement measurement (mergedOptions.setVerify true)
        { result := match outcome with
            | .error e => .error e
            | .ok _ => .ok measurement
          data := data1
          trace := [.run measurement.durations] ++ mergeTrace
                    ++ [.emit description measurement, .verified outcome] }

/-- Modelled from the spec: the fixed header line of a report (the
constant `HEADER` from `"./etc"`, a file not included under `src/`). -/
def HEADER : String := "- - - - - - - - - - Performance - - - - - - - - - -"

/-- Modelled from the spec: the fixed footer line of a report (the
constant `FOOTER` from `"./etc"`, a file not included under `src/`). -/
def FOOTER : String := "- - - - - - - - - - - - - - - - - - - - - - - - - -"

/-- `"  ".repeat(depth)` generalized: `n` copies of a string. -/
def repeatStr (s : String) (n : ℕ) : String :=
  String.join (List.replicate n s)

/-- The helper `round(value, places = 5)`, i.e. `mathjs.round`: round to
`places` decimal digits (`Mathlib`'s nearest-integer `round` stands in for
mathjs's tie-breaking, which no claim depends on). -/
noncomputable def roundTo (places : ℕ) (value : ℝ) : ℝ :=
  ((round (value * 10 ^ places) : ℤ) : ℝ) / 10 ^ places

/-- The per-node measurement sub-line of `reportLevel`:
`"<mean> ms (... ms) from <count> iterations"` (with the plus-minus
margin in the middle), indented one
level deeper than its node, with mean and margin of error rounded to 5
decimal places.  JavaScript's number-to-string conversion is abstracted
into the parameter `fmt`. -/
noncomputable def statLine (fmt : ℝ → String) (durations : List ℚ)
    (depth : ℕ) : String :=
  repeatStr "  " (depth + 1) ++ fmt (roundTo 5 (Stats.mean durations : ℝ))
    ++ " ms (+/- " ++ fmt (roundTo 5 (Stats.marginOfError durations))
    ++ " ms) from " ++ toString durations.length ++ " iterations"

/-- `Benchmark#reportLevel`: for each entry in insertion order, push the
`"<key>:"` line indented two spaces per depth level, then the measurement
sub-line when the node has direct samples, then a blank separator line
when it has both direct samples and children, then the recursively
rendered children one level deeper. -/
noncomputable def reportLevel (fmt : ℝ → String) (level : BenchmarkData)
    (depth : ℕ) : List String :=
  match level with
  | [] => []
  | (description, BenchmarkNode.mk ds cs) :: rest =>
    let lines := [repeatStr "  " depth ++ description ++ ":"]
    let lines := if 0 < ds.length
      then lines ++ [statLine fmt ds depth] else lines
    let lines := if 0 < ds.length ∧ 0 < cs.length
      then lines ++ [""] else lines
    let lines := if 0 < cs.length
      then lines ++ reportLevel fmt cs (depth + 1) else lines
    lines ++ reportLevel fmt rest depth
termination_by sizeOf level
decreasing_by all_goals simp <;> omega

/-- `Array.prototype.join("\n")`. -/
def joinLines : List String → String
  | [] => ""
  | [line] => line
  | line :: rest => line ++ "\n" ++ joinLines rest

/-- `Benchmark#report`: empty string for an entirely empty tree, otherwise
the header, the rendered tree, and the footer, newline-joined. -/
noncomputable def report (fmt : ℝ → String) (data : BenchmarkData) : String :=
  let lines := reportLevel fmt data 0
  if lines = [] then ""
  else joinLines ([HEADER] ++ reportLevel fmt data 0 ++ [FOOTER])

/-- `Benchmark#report` as a method on the benchmark state: it only reads
`this.data` (neither `report` nor `reportLevel` assigns to it), so its
state-passing embedding returns the state unchanged. -/
noncomputable def reportM (fmt : ℝ → String) (state : BenchmarkData) :
    String × BenchmarkData :=
  (report fmt state, state)

/-! ## Statistics lemmas -/

theorem foldl_min_le (xs : List ℚ) : ∀ a : ℚ, xs.foldl min a ≤ a := by
  induction xs with
  | nil => intro a; simp
  | cons y ys ih =>
      intro a
      exact le_trans (ih (Min.min a y)) (min_le_left a y)

theorem foldl_min_le_mem (xs : List ℚ) :
    ∀ a x : ℚ, x ∈ xs → xs.foldl min a ≤ x := by
  induction xs with
  | nil => intro a x hx; simp at hx
  | cons y ys ih =>
      intro a x hx
      rcases List.mem_cons.mp hx with h | h
      · subst h
        exact le_trans (foldl_min_le ys (Min.min a x)) (min_le_right a x)
      · exact ih (Min.min a y) x h

theorem minimum_le_mem (l : List ℚ) (x : ℚ) (hx : x ∈ l) :
    Stats.minimum l ≤ x := by
  match l with
  | [] => simp at hx
  | y :: ys =>
      rcases List.mem_cons.mp hx with h | h
      · subst h; exact foldl_min_le ys x
      · exact foldl_min_le_mem ys y x h

theorem le_foldl_max (xs : List ℚ) : ∀ a : ℚ, a ≤ xs.foldl max a := by
  induction xs with
  | nil => intro a; simp
  | cons y ys ih =>
      intro a
      exact le_trans (le_max_left a y) (ih (Max.max a y))

theorem mem_le_foldl_max (xs : List ℚ) :
    ∀ a x : ℚ, x ∈ xs → x ≤ xs.foldl max a := by
  induction xs with
  | nil => intro a x hx; simp at hx
  | cons y ys ih =>
      intro a x hx
      rcases List.mem_cons.mp hx with h | h
      · subst h
        exact le_trans (le_max_right a x) (le_foldl_max ys (Max.max a x))
      · exact ih (Max.max a y) x h

theorem mem_le_maximum (l : List ℚ) (x : ℚ) (hx : x ∈ l) :
    x ≤ Stats.maximum l := by
  match l with
  | [] => simp at hx
  | y :: ys =>
      rcases List.mem_cons.mp hx with h | h
      · subst h; exact le_foldl_max ys x
      · exact mem_le_foldl_max ys y x h

theorem mul_card_le_sum (l : List ℚ) (a : ℚ) (h : ∀ x ∈ l, a ≤ x) :
    (l.length : ℚ) * a ≤ l.sum := by
  induction l with
  | nil => simp
  | cons y ys ih =>
      have h1 : a ≤ y := h y (List.mem_cons_self y ys)
      have h2 : (ys.length : ℚ) * a ≤ ys.sum :=
        ih (fun x hx => h x (List.mem_cons_of_mem y hx))
      simp only [List.length_cons, List.sum_cons]
      push_cast
      linarith

theorem sum_le_mul_card (l : List ℚ) (a : ℚ) (h : ∀ x ∈ l, x ≤ a) :
    l.sum ≤ (l.length : ℚ) * a := by
  induction l with
  | nil => simp
  | cons y ys ih =>
      have h1 : y ≤ a := h y (List.mem_cons_self y ys)
      have h2 : ys.sum ≤ (ys.length : ℚ) * a :=
        ih (fun x hx => h x (List.mem_cons_of_mem y hx))
      simp only [List.length_cons, List.sum_cons]
      push_cast
      linarith

theorem minimum_le_mean (l : List ℚ) (h : l ≠ []) :
    Stats.minimum l ≤ Stats.mean l := by
  have hn : 0 < l.length := List.length_pos.mpr h
  have hn' : (0 : ℚ) < (l.length : ℚ) := by exact_mod_cast hn
  rw [Stats.mean, le_div_iff₀ hn', mul_comm]
  exact mul_card_le_sum l (Stats.minimum l) (fun x hx => minimum_le_mem l x hx)

theorem mean_le_maximum (l : List ℚ) (h : l ≠ []) :
    Stats.mean l ≤ Stats.maximum l := by
  have hn : 0 < l.length := List.length_pos.mpr h
  have hn' : (0 : ℚ) < (l.length : ℚ) := by exact_mod_cast hn
  rw [Stats.mean, div_le_iff₀ hn', mul_comm]
  exact sum_le_mul_card l (Stats.maximum l) (fun x hx => mem_le_maximum l x hx)

/-- C7: for every Measurement with a non-empty sample list,
`min ≤ mean ≤ max`, the standard deviation and the margin of error are
nonnegative, and the margin of error equals
`1.96 × sqrt(variance(samples) / n)` where `n` is the number of samples. -/
theorem measurement_stats (m : Measurement) (h : m.durations ≠ []) :
    m.min ≤ m.mean ∧ m.mean ≤ m.max ∧
      0 ≤ m.standardDeviation ∧ 0 ≤ m.marginOfError ∧
      m.marginOfError
        = 1.96 * Real.sqrt ((Stats.variance m.durations : ℝ) / (m.durations.length : ℝ)) := by
  refine ⟨minimum_le_mean m.durations h, mean_le_maximum m.durations h, ?_, ?_, ?_⟩
  · exact Real.sqrt_nonneg _
  · exact mul_nonneg (Real.sqrt_nonneg _) (by norm_num)
  · rw [Measurement.marginOfError, Stats.marginOfError, mul_comm]

theorem measurement_stats_witness :
    (Measurement.mk [1, 2, 3]).min ≤ (Measurement.mk [1, 2, 3]).mean ∧
      (Measurement.mk [1, 2, 3]).mean ≤ (Measurement.mk [1, 2, 3]).max ∧
      0 ≤ (Measurement.mk [1, 2, 3]).standardDeviation ∧
      0 ≤ (Measurement.mk [1, 2, 3]).marginOfError ∧
      (Measurement.mk [1, 2, 3]).marginOfError
        = 1.96 * Real.sqrt ((Stats.variance [1, 2, 3] : ℝ) / (([1, 2, 3] : List ℚ).length : ℝ)) :=
  measurement_stats (Measurement.mk [1, 2, 3]) (by simp)

/-! ## Threshold verification -/

/-- The sequence of `checkThreshold` blocks over a list of checks, ending
in success. -/
noncomputable def chainChecks : List (String × ℝ × Option ℚ) → Except BenchError Unit
  | [] => .ok ()
  | (s, v, t) :: rest => checkThreshold s v t (chainChecks rest)

theorem chain_eq_first (checks : List (String × ℝ × Option ℚ)) :
    chainChecks checks
      = match firstExceeded checks with
        | none => .ok ()
        | some (s, v, t) => .error (.performance s v t) := by
  induction checks with
  | nil => rfl
  | cons c rest ih =>
      rcases c with ⟨s, v, t⟩
      rcases t with _ | t
      · simpa [chainChecks, checkThreshold, firstExceeded] using ih
      · by_cases hgt : v > (t : ℝ)
        · simp [chainChecks, checkThreshold, firstExceeded, hgt]
        · simpa [chainChecks, checkThreshold, firstExceeded, hgt] using ih

/-- C1: threshold verification succeeds unconditionally when `verify` is
false; otherwise it fails with a `PerformanceError` naming the statistic,
its measured value and the configured threshold, at the first defined
threshold in the fixed check order (mean, min, max, margin of error,
standard deviation) whose statistic value is strictly greater than the
threshold, and succeeds when no defined threshold is exceeded. -/
theorem verify_first_exceeded (measurement : Measurement)
    (options : MeasureOptions) :
    verifyMeasurement measurement options
      = if options.verify = false then .ok ()
        else
          match firstExceeded (thresholdChecks measurement options) with
          | none => .ok ()
          | some (s, v, t) => .error (.performance s v t) := by
  by_cases hv : options.verify = false
  · simp [verifyMeasurement, hv]
  · have h1 : verifyMeasurement measurement options
        = chainChecks (thresholdChecks measurement options) := by
      simp only [verifyMeasurement, hv, if_false]
      rfl
    rw [h1, chain_eq_first, if_neg hv]

/-! ## Tree merge -/

/-- C3: merging under a non-empty path lazily creates the missing nodes
and appends the samples, without deduplication, to the final node's own
duration list, so a path and its prefix coexist: recording under
`["A", "B"]` and under `["A"]`, in either order, yields the same tree,
with node `"A"` holding its own non-empty direct samples and a child
`"B"` holding its own samples; recording twice under the same path
concatenates the sample lists. -/
theorem tree_merge_coexistence (d1 d2 : List ℚ) (h1 : d1 ≠ []) (h2 : d2 ≠ []) :
    addBenchmarkDurations (addBenchmarkDurations [] ["A", "B"] d1) ["A"] d2
        = [("A", .mk d2 [("B", .mk d1 [])])] ∧
      addBenchmarkDurations (addBenchmarkDurations [] ["A"] d2) ["A", "B"] d1
        = [("A", .mk d2 [("B", .mk d1 [])])] ∧
      addBenchmarkDurations (addBenchmarkDurations [] ["A"] d1) ["A"] d2
        = [("A", .mk (d1 ++ d2) [])] ∧
      lookupKey [("A", BenchmarkNode.mk d2 [("B", BenchmarkNode.mk d1 [])])] "A"
        = some (.mk d2 [("B", .mk d1 [])]) ∧
      (BenchmarkNode.mk d2 [("B", BenchmarkNode.mk d1 [])]).durations ≠ [] ∧
      lookupKey (BenchmarkNode.mk d2 [("B", BenchmarkNode.mk d1 [])]).children "B"
        = some (.mk d1 []) ∧
      (BenchmarkNode.mk d1 ([] : BenchmarkData)).durations ≠ [] :=
  ⟨rfl, rfl, rfl, rfl, h2, rfl, h1⟩

theorem tree_merge_coexistence_witness :
    addBenchmarkDurations (addBenchmarkDurations [] ["A", "B"] [1]) ["A"] [2]
        = [("A", .mk [2] [("B", .mk [1] [])])] ∧
      addBenchmarkDurations (addBenchmarkDurations [] ["A"] [2]) ["A", "B"] [1]
        = [("A", .mk [2] [("B", .mk [1] [])])] ∧
      addBenchmarkDurations (addBenchmarkDurations [] ["A"] [1]) ["A"] [2]
        = [("A", .mk ([1] ++ [2]) [])] ∧
      lookupKey [("A", BenchmarkNode.mk [2] [("B", BenchmarkNode.mk [1] [])])] "A"
        = some (.mk [2] [("B", .mk [1] [])]) ∧
      (BenchmarkNode.mk [2] [("B", BenchmarkNode.mk [1] [])]).durations ≠ [] ∧
      lookupKey (BenchmarkNode.mk [2] [("B", BenchmarkNode.mk [1] [])]).children "B"
        = some (.mk [1] []) ∧
      (BenchmarkNode.mk [1] ([] : BenchmarkData)).durations ≠ [] :=
  tree_merge_coexistence [1] [2] (by simp) (by simp)

/-! ## The execution engine -/

theorem verify_of_no_thresholds (m : Measurement) (o : MeasureOptions)
    (h1 : o.meanUnder = none) (h2 : o.minUnder = none) (h3 : o.maxUnder = none)
    (h4 : o.marginOfErrorUnder = none) (h5 : o.standardDeviationUnder = none) :
    verifyMeasurement m o = .ok () := by
  by_cases hv : o.verify = false <;>
    simp [verifyMeasurement, hv, h1, h2, h3, h4, h5, checkThreshold]

/-- C5: with `iterations = N` and a completion schedule that is a
permutation of the iteration indices (serial mode runs them in index
order, which is one such permutation), the engine collects exactly `N`
duration samples, any successfully returned `Measurement` holds exactly
`N` samples, and when no threshold is configured and `N` is positive the
call succeeds with exactly those `N` samples — in serial and in
overlapped mode alike. -/
theorem measure_sample_count (oracle : ℕ → ℚ) (schedule : List ℕ)
    (options : OptionalMeasureOptions) (N : ℕ)
    (hN : (mergeOptions options).iterations = N)
    (hsched : schedule.Perm (List.range N)) :
    (runDurations oracle schedule (mergeOptions options)).length = N ∧
      (∀ m, Kelonio.measure oracle schedule options = .ok m
        → m.durations.length = N) ∧
      ((mergeOptions options).meanUnder = none
        → (mergeOptions options).minUnder = none
        → (mergeOptions options).maxUnder = none
        → (mergeOptions options).marginOfErrorUnder = none
        → (mergeOptions options).standardDeviationUnder = none
        → 0 < N
        → Kelonio.measure oracle schedule options
            = .ok ⟨runDurations oracle schedule (mergeOptions options)⟩) := by
  have hlen : (runDurations oracle schedule (mergeOptions options)).length = N := by
    unfold runDurations
    split
    · simp [hN]
    · simp [hsched.length_eq]
  refine ⟨hlen, ?_, ?_⟩
  · intro m hm
    unfold Kelonio.measure at hm
    by_cases h0 : (runDurations oracle schedule (mergeOptions options)).length = 0
    · simp [Measurement.make, h0] at hm
    · simp only [Measurement.make, h0, if_false] at hm
      rcases hver : verifyMeasurement ⟨runDurations oracle schedule (mergeOptions options)⟩
          (mergeOptions options) with e | u <;> simp [hver] at hm
      rw [← hm]
      exact hlen
  · intro h1 h2 h3 h4 h5 hpos
    have h0 : ¬ (runDurations oracle schedule (mergeOptions options)).length = 0 := by
      rw [hlen]; omega
    unfold Kelonio.measure
    simp [Measurement.make, h0,
      verify_of_no_thresholds _ _ h1 h2 h3 h4 h5]

theorem measure_sample_count_witness :
    (runDurations (fun i => (i : ℚ)) [2, 0, 1]
      (mergeOptions { iterations := some 3, serial := some false })).length = 3 :=
  (measure_sample_count (fun i => (i : ℚ)) [2, 0, 1]
    { iterations := some 3, serial := some false } 3 rfl (by decide)).1

/-- C8: constructing a Measurement from an empty sample list fails with
the invalid-argument error, and `measure` with `iterations = 0` collects
no samples and therefore fails with that same error instead of returning
an empty result. -/
theorem empty_durations_fail (oracle : ℕ → ℚ) (schedule : List ℕ)
    (options : OptionalMeasureOptions)
    (h0 : (mergeOptions options).iterations = 0)
    (hsched : schedule.Perm (List.range 0)) :
    Measurement.make []
        = .error (.invalidArgument "The list of durations must not be empty") ∧
      Kelonio.measure oracle schedule options
        = .error (.invalidArgument "The list of durations must not be empty") := by
  have hnil : schedule = [] := List.Perm.eq_nil (by simpa using hsched)
  refine ⟨rfl, ?_⟩
  have hrun : runDurations oracle schedule (mergeOptions options) = [] := by
    unfold runDurations
    split <;> simp [h0, hnil]
  unfold Kelonio.measure
  simp [hrun, Measurement.make]

theorem empty_durations_fail_witness :
    Measurement.make []
        = .error (.invalidArgument "The list of durations must not be empty") ∧
      Kelonio.measure (fun _ => 0) [] { iterations := some 0 }
        = .error (.invalidArgument "The list of durations must not be empty") :=
  empty_durations_fail (fun _ => 0) [] { iterations := some 0 } rfl (by simp)

/-! ## Recording -/

theorem merge_toOptional (o : MeasureOptions) : mergeOptions o.toOptional = o := rfl

theorem measure_verify_false (oracle : ℕ → ℚ) (schedule : List ℕ)
    (o : MeasureOptions) (hv : o.verify = false)
    (hne : runDurations oracle schedule o ≠ []) :
    Kelonio.measure oracle schedule o.toOptional
      = .ok ⟨runDurations oracle schedule o⟩ := by
  have h0 : ¬ (runDurations oracle schedule o).length = 0 :=
    fun h => hne (List.length_eq_zero.mp h)
  unfold Kelonio.measure
  rw [merge_toOptional]
  simp [Measurement.make, h0, verifyMeasurement, hv]

/-- One-step unfolding of a `record` call that passes the description
check and whose run collects at least one sample: the tree is merged
exactly when the path is non-empty, the event is emitted once, and the
observable effects happen in the order run, merge, emit, verify. -/
theorem record_unfold (data : BenchmarkData) (oracle : ℕ → ℚ)
    (schedule : List ℕ) (desc : RecordDesc) (options : OptionalMeasureOptions)
    (hvalid : ¬ (desc.specified = true ∧ desc.rawLength = 0))
    (hne : runDurations oracle schedule ((mergeOptions options).setVerify false) ≠ []) :
    Benchmark.record data oracle schedule desc options
      = { result :=
            match verifyMeasurement
                ⟨runDurations oracle schedule ((mergeOptions options).setVerify false)⟩
                ((mergeOptions options).setVerify true) with
            | .error e => .error e
            | .ok _ => .ok ⟨runDurations oracle schedule ((mergeOptions options).setVerify false)⟩
          data :=
            if 0 < desc.path.length then
              addBenchmarkDurations data desc.path
                (runDurations oracle schedule ((mergeOptions options).setVerify false))
            else data
          trace :=
            [.run (runDurations oracle schedule ((mergeOptions options).setVerify false))]
              ++ (if 0 < desc.path.length then
                    [.merge desc.path
                      ⟨runDurations oracle schedule ((mergeOptions options).setVerify false)⟩]
                  else [])
              ++ [.emit desc.path
                    ⟨runDurations oracle schedule ((mergeOptions options).setVerify false)⟩,
                  .verified (verifyMeasurement
                    ⟨runDurations oracle schedule ((mergeOptions options).setVerify false)⟩
                    ((mergeOptions options).setVerify true))] } := by
  unfold Benchmark.record
  rw [if_neg hvalid]
  simp only [measure_verify_false oracle schedule ((mergeOptions options).setVerify false) rfl hne]
  by_cases hp : 0 < desc.path.length
  · have hp0 : ¬ desc.path.length = 0 := Nat.pos_iff_ne_zero.mp hp
    simp [incorporate, hp, hp0]
  · simp [hp]

/-- C2: whenever a `record` call gets past the description check and its
run collects at least one sample, the `record` event is emitted exactly
once, and the effect trace places that emission after the merge into the
tree (present exactly when a description path was given) and before
threshold verification, whose outcome is observed only afterwards — so a
listener sees the Measurement even when verification then fails. -/
theorem record_emits_once (data : BenchmarkData) (oracle : ℕ → ℚ)
    (schedule : List ℕ) (desc : RecordDesc) (options : OptionalMeasureOptions)
    (hvalid : ¬ (desc.specified = true ∧ desc.rawLength = 0))
    (hne : runDurations oracle schedule ((mergeOptions options).setVerify false) ≠ []) :
    (Benchmark.record data oracle schedule desc options).trace
        = [RecordEffect.run (runDurations oracle schedule ((mergeOptions options).setVerify false))]
            ++ (if 0 < desc.path.length then
                  [RecordEffect.merge desc.path
                    ⟨runDurations oracle schedule ((mergeOptions options).setVerify false)⟩]
                else [])
            ++ [RecordEffect.emit desc.path
                  ⟨runDurations oracle schedule ((mergeOptions options).setVerify false)⟩,
                RecordEffect.verified (verifyMeasurement
                  ⟨runDurations oracle schedule ((mergeOptions options).setVerify false)⟩
                  ((mergeOptions options).setVerify true))] ∧
      (Benchmark.record data oracle schedule desc options).trace.countP
          RecordEffect.isEmit = 1 := by
  rw [record_unfold data oracle schedule desc options hvalid hne]
  refine ⟨rfl, ?_⟩
  by_cases hp : 0 < desc.path.length <;>
    simp [hp, List.countP_append, List.countP_cons, RecordEffect.isEmit]

theorem record_emits_once_witness :
    (Benchmark.record [] (fun _ => (1 : ℚ)) [] (.listDesc ["A"])
      { iterations := some 1 }).trace.countP RecordEffect.isEmit = 1 :=
  (record_emits_once [] (fun _ => (1 : ℚ)) [] (.listDesc ["A"])
    { iterations := some 1 } (by decide) (by decide)).2

/-- C6: `record` without a description runs the engine with `verify`
forced false (so the run itself cannot fail on thresholds), leaves
`Benchmark.data` completely unchanged, broadcasts the Measurement tagged
with the empty path, then verifies with the caller's merged options
(`verify` forced back true) and returns the Measurement or the
verification error. -/
theorem record_without_description (data : BenchmarkData) (oracle : ℕ → ℚ)
    (schedule : List ℕ) (options : OptionalMeasureOptions)
    (hne : runDurations oracle schedule ((mergeOptions options).setVerify false) ≠ []) :
    (Benchmark.record data oracle schedule .noDesc options).data = data ∧
      (Benchmark.record data oracle schedule .noDesc options).trace
        = [RecordEffect.run (runDurations oracle schedule ((mergeOptions options).setVerify false)),
           RecordEffect.emit []
             ⟨runDurations oracle schedule ((mergeOptions options).setVerify false)⟩,
           RecordEffect.verified (verifyMeasurement
             ⟨runDurations oracle schedule ((mergeOptions options).setVerify false)⟩
             ((mergeOptions options).setVerify true))] ∧
      (Benchmark.record data oracle schedule .noDesc options).result
        = (match verifyMeasurement
              ⟨runDurations oracle schedule ((mergeOptions options).setVerify false)⟩
              ((mergeOptions options).setVerify true) with
           | .error e => .error e
           | .ok _ => .ok ⟨runDurations oracle schedule ((mergeOptions options).setVerify false)⟩) := by
  rw [record_unfold data oracle schedule .noDesc options (by simp [RecordDesc.specified]) hne]
  exact ⟨rfl, rfl, rfl⟩

theorem record_without_description_witness :
    (Benchmark.record [("A", .mk [5] [])] (fun _ => (1 : ℚ)) [] .noDesc
      { iterations := some 1 }).data = [("A", .mk [5] [])] :=
  (record_without_description [("A", .mk [5] [])] (fun _ => (1 : ℚ)) []
    { iterations := some 1 } (by decide)).1

/-- C10: calling `record` with the empty string as the description fails
immediately with the invalid-argument error, before any iteration runs
and without touching the tree (empty trace, unchanged data); a non-empty
string description is treated as the one-element path `[s]`, as the merge
and emission effects show. -/
theorem record_empty_string_description (data : BenchmarkData)
    (oracle : ℕ → ℚ) (schedule : List ℕ) (options : OptionalMeasureOptions)
    (s : String) (hs : s ≠ "")
    (hne : runDurations oracle schedule ((mergeOptions options).setVerify false) ≠ []) :
    Benchmark.record data oracle schedule (.strDesc "") options
        = { result := .error (.invalidArgument "The description must not be empty")
            data := data
            trace := [] } ∧
      (Benchmark.record data oracle schedule (.strDesc s) options).trace
        = [RecordEffect.run (runDurations oracle schedule ((mergeOptions options).setVerify false)),
           RecordEffect.merge [s]
             ⟨runDurations oracle schedule ((mergeOptions options).setVerify false)⟩,
           RecordEffect.emit [s]
             ⟨runDurations oracle schedule ((mergeOptions options).setVerify false)⟩,
           RecordEffect.verified (verifyMeasurement
             ⟨runDurations oracle schedule ((mergeOptions options).setVerify false)⟩
             ((mergeOptions options).setVerify true))] := by
  constructor
  · unfold Benchmark.record
    rw [if_pos ⟨rfl, rfl⟩]
  · have hlen : ¬ ((RecordDesc.strDesc s).specified = true
        ∧ (RecordDesc.strDesc s).rawLength = 0) := by
      rintro ⟨_, hzero⟩
      apply hs
      obtain ⟨cs⟩ := s
      simp only [RecordDesc.rawLength, String.length] at hzero
      rw [List.length_eq_zero] at hzero
      subst hzero
      rfl
    rw [record_unfold data oracle schedule (.strDesc s) options hlen hne]
    simp [RecordDesc.path]

theorem record_empty_string_description_witness :
    Benchmark.record [] (fun _ => (1 : ℚ)) [] (.strDesc "") { iterations := some 1 }
      = { result := .error (.invalidArgument "The description must not be empty")
          data := []
          trace := [] } :=
  (record_empty_string_description [] (fun _ => (1 : ℚ)) [] { iterations := some 1 }
    "x" (by decide) (by decide)).1

/-! ## Report rendering -/

theorem reportLevel_nil (fmt : ℝ → String) (depth : ℕ) :
    reportLevel fmt [] depth = [] := by
  unfold reportLevel
  rfl

theorem reportLevel_cons (fmt : ℝ → String) (key : String) (ds : List ℚ)
    (cs : BenchmarkData) (rest : BenchmarkData) (depth : ℕ) :
    reportLevel fmt ((key, .mk ds cs) :: rest) depth
      = ([repeatStr "  " depth ++ key ++ ":"]
          ++ (if ds.length ≠ 0 then [statLine fmt ds depth] else [])
          ++ (if ds.length ≠ 0 ∧ cs.length ≠ 0 then [""] else [])
          ++ (if cs.length ≠ 0 then reportLevel fmt cs (depth + 1) else []))
        ++ reportLevel fmt rest depth := by
  conv_lhs => rw [reportLevel]
  by_cases hd : ds.length = 0 <;> by_cases hc : cs.length = 0 <;>
    simp [hd, hc, Nat.pos_iff_ne_zero, List.append_assoc]

theorem reportLevel_ne_nil (fmt : ℝ → String) (level : BenchmarkData)
    (depth : ℕ) (h : level ≠ []) : reportLevel fmt level depth ≠ [] := by
  match level with
  | [] => exact absurd rfl h
  | (key, .mk ds cs) :: rest =>
      rw [reportLevel_cons]
      simp

theorem joinLines_cons_ne_empty (x : String) (rest : List String)
    (h : rest ≠ []) : joinLines (x :: rest) ≠ "" := by
  match rest with
  | [] => exact absurd rfl h
  | y :: t =>
      intro hcontra
      have hlen : (joinLines (x :: y :: t)).length = 0 := by rw [hcontra]; rfl
      have heq : joinLines (x :: y :: t) = x ++ "\n" ++ joinLines (y :: t) := rfl
      rw [heq] at hlen
      simp [String.length_append] at hlen
      exact absurd hlen.1.2 (by decide)

/-- C4: rendering an empty level yields no lines; rendering a non-empty
level emits, per node in insertion order, the two-space-per-depth indented
`"<key>:"` line, the measurement sub-line (mean and margin of error
rounded to 5 decimal places with the sample count) exactly when the node
has direct samples, one blank line exactly when the node has both direct
samples and children, then the children rendered at depth + 1, followed by
the remaining siblings; the full report is empty exactly for an entirely
empty tree, and otherwise is the fixed header line, the traversal's lines
and the fixed footer line, newline-joined. -/
theorem report_format (fmt : ℝ → String) (data : BenchmarkData) (key : String)
    (ds : List ℚ) (cs : BenchmarkData) (rest : BenchmarkData) (depth : ℕ) :
    reportLevel fmt [] depth = [] ∧
      reportLevel fmt ((key, .mk ds cs) :: rest) depth
        = ([repeatStr "  " depth ++ key ++ ":"]
            ++ (if ds.length ≠ 0 then [statLine fmt ds depth] else [])
            ++ (if ds.length ≠ 0 ∧ cs.length ≠ 0 then [""] else [])
            ++ (if cs.length ≠ 0 then reportLevel fmt cs (depth + 1) else []))
          ++ reportLevel fmt rest depth ∧
      (report fmt data = "" ↔ data = []) ∧
      (data ≠ [] → report fmt data
        = joinLines ([HEADER] ++ reportLevel fmt data 0 ++ [FOOTER])) := by
  have hfull : data ≠ [] → report fmt data
      = joinLines ([HEADER] ++ reportLevel fmt data 0 ++ [FOOTER]) := by
    intro hne
    have h1 : reportLevel fmt data 0 ≠ [] := reportLevel_ne_nil fmt data 0 hne
    unfold report
    simp [h1]
  refine ⟨reportLevel_nil fmt depth, reportLevel_cons fmt key ds cs rest depth,
    ⟨?_, ?_⟩, hfull⟩
  · intro hrep
    by_contra hne
    rw [hfull hne] at hrep
    exact joinLines_cons_ne_empty HEADER
      (reportLevel fmt data 0 ++ [FOOTER]) (by simp) hrep
  · intro hdata
    subst hdata
    unfold report
    simp [reportLevel_nil]

theorem report_format_witness :
    report (fun _ => "n") [("x", .mk [1, 2, 3] [])]
      = joinLines ([HEADER]
          ++ reportLevel (fun _ => "n") [("x", .mk [1, 2, 3] [])] 0
          ++ [FOOTER]) :=
  (report_format (fun _ => "n") [("x", .mk [1, 2, 3] [])] "x" [1, 2, 3] [] [] 0).2.2.2
    (by simp)

/-- C9: `report` does not modify the benchmark state, and calling it twice
without intervening recordings yields identical output. -/
theorem report_stateless (fmt : ℝ → String) (state : BenchmarkData) :
    (reportM fmt state).2 = state ∧
      (reportM fmt ((reportM fmt state).2)).1 = (reportM fmt state).1 :=
  ⟨rfl, rfl⟩
